import Mathlib

/-!
Verification of the educational-assistant repository (app.py and main.py):
subject classifier, static knowledge lookup, math-evaluator control flow,
CSV-backed history log, and the remote completion adapter.

Strings are modelled by Lean `String` (a wrapper of `List Char`); Python
`str.lower()` is modelled by `Char.toLower` on every character, which agrees
with Python on ASCII text (all keyword tables are ASCII).
-/

/-! ## Basic string utilities (Python substring and split semantics) -/

/-- Boolean list-prefix test on characters. -/
def isPrefixChars : List Char → List Char → Bool
  | [], _ => true
  | _ :: _, [] => false
  | a :: as, b :: bs => a = b && isPrefixChars as bs

/-- Boolean substring test: does `pat` occur contiguously inside the second list?
Models the Python expression `pat in hay` on strings (the empty pattern matches). -/
def isSubChars (pat : List Char) : List Char → Bool
  | [] => pat.isEmpty
  | c :: rest => isPrefixChars pat (c :: rest) || isSubChars pat rest

/-- Python `pat in hay` for strings. -/
def strContains (hay pat : String) : Bool :=
  isSubChars pat.data hay.data

/-- Python `s.lower()` (ASCII case mapping). -/
def pyLower (s : String) : String :=
  String.mk (s.data.map Char.toLower)

/-- Python ASCII whitespace, as recognised by `str.split()` with no argument. -/
def pyIsSpace (c : Char) : Bool :=
  c = ' ' || c = '\t' || c = '\n' || c = '\r' || c = '\x0b' || c = '\x0c'

/-- Worker for `str.split()`: split on runs of whitespace, dropping empty tokens.
`cur` holds the characters of the current token in reverse. -/
def splitWsAux : List Char → List Char → List (List Char)
  | [], [] => []
  | [], cur => [cur.reverse]
  | c :: rest, cur =>
    if pyIsSpace c then
      if cur.isEmpty then splitWsAux rest []
      else cur.reverse :: splitWsAux rest []
    else splitWsAux rest (c :: cur)

/-- Python `s.split()` (no separator argument). -/
def pySplitWs (s : String) : List String :=
  (splitWsAux s.data []).map String.mk

/-- Python `s.split(sep)` for a one-character separator `sep`. -/
def splitOnChar (sep : Char) : List Char → List (List Char)
  | [] => [[]]
  | c :: rest =>
    if c = sep then [] :: splitOnChar sep rest
    else
      match splitOnChar sep rest with
      | [] => [[c]]
      | p :: ps => (c :: p) :: ps

/-- First element of a list satisfying `p`, as the Python
`for item in l: if p(item): return item` loop. -/
def firstHit {β : Type} (p : β → Bool) : List β → Option β
  | [] => none
  | b :: rest => if p b then some b else firstHit p rest

/-! ## Subject classifier, app.py (`detect_subject`, lines 39-51) -/

/-- `SUBJECT_KEYWORDS` of app.py, in dict insertion order. -/
def SUBJECT_KEYWORDS : List (String × List String) :=
  [("Math", ["integral", "derivative", "equation", "solve", "limit", "factor",
             "matrix", "algebra", "calculus"]),
   ("Science", ["experiment", "hypothesis", "reaction", "photosynthesis",
                "biology", "chemistry", "physics", "ecosystem"]),
   ("History", ["timeline", "revolution", "world war", "causes", "history",
                "civilization", "era", "empire"]),
   ("Literature", ["theme", "character", "metaphor", "poem", "novel",
                   "literature", "analysis", "symbolism"])]

/-- app.py `detect_subject`.  The argument is `Option String` so that the Python
call `detect_subject(None)` is expressible: `(query or "").lower()` maps both
`None` and `""` to the empty string. -/
def detect_subject (query : Option String) : String :=
  let q := pyLower (query.getD "")
  match firstHit (fun p => p.2.any (fun w => strContains q w)) SUBJECT_KEYWORDS with
  | some p => p.1
  | none => "General"

/-! ## Subject classifier, main.py (`detect_subject`, lines 12-23) -/

/-- main.py `detect_subject` on an actual string: nested if/elif over the
literal keyword lists of that file. -/
def detect_subject_main (query : String) : String :=
  let query_lower := pyLower query
  if ["integral", "derivative", "equation", "solve", "∫", "∑"].any
      (fun w => strContains query_lower w) then "Math"
  else if ["experiment", "hypothesis", "reaction", "photosynthesis", "biology",
           "chemistry"].any (fun w => strContains query_lower w) then "Science"
  else if ["timeline", "revolution", "world war", "causes", "history"].any
      (fun w => strContains query_lower w) then "History"
  else if ["theme", "character", "metaphor", "poem", "novel", "literature",
           "analysis"].any (fun w => strContains query_lower w) then "Literature"
  else "General"

/-- main.py `detect_subject` including the `None` case: `query.lower()` raises
`AttributeError` when `query` is `None`, modelled as `none`. -/
def detect_subject_mainQ : Option String → Option String
  | none => none
  | some q => some (detect_subject_main q)

/-- The keyword table of main.py, for comparison with the spec. -/
def MAIN_KEYWORDS : List (String × List String) :=
  [("Math", ["integral", "derivative", "equation", "solve", "∫", "∑"]),
   ("Science", ["experiment", "hypothesis", "reaction", "photosynthesis",
                "biology", "chemistry"]),
   ("History", ["timeline", "revolution", "world war", "causes", "history"]),
   ("Literature", ["theme", "character", "metaphor", "poem", "novel",
                   "literature", "analysis"])]

/-- The classifier as the spec words it: test the categories in the fixed
priority order given by the table, return the first category one of whose
keywords occurs as a substring of the lower-cased query, else General. -/
def classifySpec (kw : List (String × List String)) (query : String) : String :=
  match kw.find? (fun p => p.2.any (fun w => strContains (pyLower query) w)) with
  | some p => p.1
  | none => "General"

/-! ## Helper lemmas -/

theorem firstHit_eq_find? {β : Type} (p : β → Bool) (l : List β) :
    firstHit p l = l.find? p := by
  induction l with
  | nil => rfl
  | cons b rest ih =>
    simp only [firstHit, List.find?]
    cases hb : p b <;> simp [hb, ih]

/-! ## Static knowledge tables and lookup (app.py lines 16-34, 99-115) -/

/-- A static knowledge note: `{topic, summary, sources}`. -/
structure Note where
  topic : String
  summary : String
  sources : String
deriving DecidableEq

def HISTORY_NOTES : List Note :=
  [⟨"World War I Causes",
    "Militarism, alliances, imperialism, and nationalism set the stage for conflict. The assassination of Archduke Franz Ferdinand in 1914 triggered the war.",
    "Encyclopedia entries and standard history texts."⟩,
   ⟨"French Revolution Overview",
    "Economic hardship, Enlightenment ideas, and social inequality led to a revolution starting in 1789, reshaping French society and politics.",
    "Primary sources and scholarly summaries."⟩]

def SCIENCE_NOTES : List Note :=
  [⟨"Photosynthesis",
    "Plants convert light energy into chemical energy, producing glucose and oxygen from CO2 and water in chloroplasts.",
    "Intro biology references."⟩,
   ⟨"States of Matter",
    "Solid, liquid, gas, and plasma differ by particle arrangement, energy, and intermolecular forces.",
    "Chemistry textbooks."⟩]

def LITERATURE_NOTES : List Note :=
  [⟨"Metaphor",
    "A figure of speech that describes an object or action as something else to illuminate meaning.",
    "Literary analysis guides."⟩,
   ⟨"Character Arc",
    "The transformation or inner journey of a character over the course of a story.",
    "Narrative theory materials."⟩]

def GENERAL_NOTES : List Note :=
  [⟨"Time Management",
    "Prioritize tasks, use time blocking, and review daily to maintain momentum.",
    "Productivity research."⟩,
   ⟨"Study Strategies",
    "Spaced repetition, active recall, and interleaving improve long-term retention.",
    "Learning science."⟩]

/-- The `notes_map` dict of `search_local_notes`, in insertion order. -/
def notes_map : List (String × List Note) :=
  [("History", HISTORY_NOTES), ("Science", SCIENCE_NOTES),
   ("Literature", LITERATURE_NOTES), ("General", GENERAL_NOTES), ("Math", [])]

/-- Python `dict.get(k, dflt)` on an association list. -/
def dictGet (m : List (String × List Note)) (k : String) (dflt : List Note) :
    List Note :=
  match m.find? (fun p => decide (p.1 = k)) with
  | some p => p.2
  | none => dflt

/-- The hardcoded fallback note returned when the category list is empty. -/
def fallbackNote : Note :=
  ⟨"Math", "Use the math tools to compute solutions or derivatives.",
   "Local computation."⟩

/-- The lower-cased topic-plus-summary blob searched for each note. -/
def noteBlob (item : Note) : String :=
  pyLower (item.topic ++ " " ++ item.summary)

/-- app.py `search_local_notes`. -/
def search_local_notes (subject : String) (query : Option String) : Note :=
  let notes := dictGet notes_map subject GENERAL_NOTES
  let q := pyLower (query.getD "")
  match firstHit
      (fun item => (pySplitWs q).any (fun w => strContains (noteBlob item) w))
      notes with
  | some item => item
  | none =>
    match notes with
    | n :: _ => n
    | [] => fallbackNote

/-- The lookup as the spec words it: select the static list for the category
(unknown categories fall back to the General list), lower-case and
whitespace-split the query into tokens, return the first note in list order
whose lower-cased topic-plus-summary concatenation contains some token,
otherwise the first note of the list, and the hardcoded fallback note if the
list is empty. -/
def lookupSpec (subject : String) (query : String) : Note :=
  let notes := dictGet notes_map subject GENERAL_NOTES
  let toks := pySplitWs (pyLower query)
  (Option.orElse
      (notes.find? (fun item => toks.any (fun w => strContains (noteBlob item) w)))
      (fun _ => notes.head?)).getD fallbackNote

/-! ## Math evaluator (app.py lines 56-94)

The symbolic engine (sympy) is an external library; it is modelled as an
explicit parameter: an abstract expression type `α` together with the
operations the repository calls on it.  `sympify` may fail (Python exception),
modelled as `Except`; the remaining calls the code makes are used only through
this interface.  `solve_equation` and `derivative` receive
`Option (SymEngine α)`: `none` models `sp is None` (sympy not importable). -/

structure SymEngine (α : Type) where
  sympify : String → Except String α
  simplify : α → α
  subE : α → α → α
  solveEq : α → α → List α
  diff : α → α
  printE : α → String
  printSols : List α → String

/-- The recovered parse-failure pair of `solve_equation`, embedding the
exception message. -/
def parseErrPair (msg : String) : String × String :=
  ("Could not parse equation",
   "Ensure a valid algebraic expression (e.g., \x272*x+3=11\x27). Error: " ++ msg)

/-- Message of the Python `ValueError` raised by `left, right = parts` when
`expression.split("=")` yields more than two parts. -/
def unpackErrMsg : String := "too many values to unpack (expected 2)"

/-- app.py `solve_equation`.  Note that `expression.split("=")` splits on every
occurrence of the separator; the two-variable unpacking raises `ValueError`
(caught by the surrounding `except`) whenever the split has three or more
parts, i.e. whenever the expression contains two or more equals signs. -/
def solve_equation {α : Type} (E : Option (SymEngine α)) (expression : String) :
    String × String :=
  match E with
  | none =>
    ("Math solver unavailable",
     "Install sympy to enable solving: `pip install sympy`. The app avoids external APIs and uses local computation.")
  | some e =>
    if strContains expression "=" then
      match splitOnChar '=' expression.data with
      | [left, right] =>
        match e.sympify (String.mk left) with
        | .error m => parseErrPair m
        | .ok lhs =>
          match e.sympify (String.mk right) with
          | .error m => parseErrPair m
          | .ok rhs =>
            ("Solution: x = " ++ e.printSols (e.solveEq lhs rhs),
             "Simplified equation: " ++ e.printE (e.simplify (e.subE lhs rhs)) ++
               " = 0\nSymbolic solve steps use sympy\x27s algebraic methods.")
      | _ => parseErrPair unpackErrMsg
    else
      match e.sympify expression with
      | .error m => parseErrPair m
      | .ok f =>
        ("Simplified: " ++ e.printE (e.simplify f),
         "Provide an equation with \x27=\x27 to solve for x, e.g., \x272*x+3=11\x27.")

/-- app.py `derivative`. -/
def derivative {α : Type} (E : Option (SymEngine α)) (expression : String) :
    String × String :=
  match E with
  | none =>
    ("Derivative unavailable",
     "Install sympy to enable derivatives: `pip install sympy`.")
  | some e =>
    match e.sympify expression with
    | .error m =>
      ("Could not compute derivative", "Check expression validity. Error: " ++ m)
    | .ok f =>
      ("Derivative df/dx: " ++ e.printE (e.diff f),
       "Computed using symbolic differentiation on f(x) = " ++ e.printE f ++ ".")

/-- `solve` exactly as claim C4 words it: when the expression contains an
equals sign, split it into left and right substrings at the FIRST occurrence,
build the equation and report the collection of solutions; otherwise simplify
and give the guidance text. -/
def solveSpecClaim {α : Type} (e : SymEngine α) (expression : String) :
    String × String :=
  if strContains expression "=" then
    let left := String.mk (expression.data.takeWhile (fun c => c ≠ '='))
    let right := String.mk (expression.data.dropWhile (fun c => c ≠ '=')).tail
    match e.sympify left with
    | .error m => parseErrPair m
    | .ok lhs =>
      match e.sympify right with
      | .error m => parseErrPair m
      | .ok rhs =>
        ("Solution: x = " ++ e.printSols (e.solveEq lhs rhs),
         "Simplified equation: " ++ e.printE (e.simplify (e.subE lhs rhs)) ++
           " = 0\nSymbolic solve steps use sympy\x27s algebraic methods.")
  else
    match e.sympify expression with
    | .error m => parseErrPair m
    | .ok f =>
      ("Simplified: " ++ e.printE (e.simplify f),
       "Provide an equation with \x27=\x27 to solve for x, e.g., \x272*x+3=11\x27.")

/-- The amended form of claim C4: the first-occurrence split only happens when
the expression contains exactly one equals sign; with two or more, the
two-variable unpacking of the full split fails and is recovered as the
parse-error pair. -/
def solveSpecAmended {α : Type} (e : SymEngine α) (expression : String) :
    String × String :=
  if expression.data.count '=' = 1 then
    let left := String.mk (expression.data.takeWhile (fun c => c ≠ '='))
    let right := String.mk (expression.data.dropWhile (fun c => c ≠ '=')).tail
    match e.sympify left with
    | .error m => parseErrPair m
    | .ok lhs =>
      match e.sympify right with
      | .error m => parseErrPair m
      | .ok rhs =>
        ("Solution: x = " ++ e.printSols (e.solveEq lhs rhs),
         "Simplified equation: " ++ e.printE (e.simplify (e.subE lhs rhs)) ++
           " = 0\nSymbolic solve steps use sympy\x27s algebraic methods.")
  else if 2 ≤ expression.data.count '=' then
    parseErrPair unpackErrMsg
  else
    match e.sympify expression with
    | .error m => parseErrPair m
    | .ok f =>
      ("Simplified: " ++ e.printE (e.simplify f),
       "Provide an equation with \x27=\x27 to solve for x, e.g., \x272*x+3=11\x27.")

/-- A concrete engine over `α := String` used to evaluate the control flow at
specific inputs: every expression parses, and the other operations are simple
string formatters. -/
def idEngine : SymEngine String where
  sympify := fun s => .ok s
  simplify := fun s => s
  subE := fun a b => a ++ " - (" ++ b ++ ")"
  solveEq := fun a b => [a ++ " ~ " ++ b]
  diff := fun s => "D[" ++ s ++ "]"
  printE := fun s => s
  printSols := fun l => "[" ++ String.intercalate ", " l ++ "]"

/-- A concrete engine whose parser rejects exactly the string "bad" with
message "boom", for exercising the recovered-failure paths. -/
def errEngine : SymEngine String where
  sympify := fun s => if s = "bad" then .error "boom" else .ok s
  simplify := fun s => s
  subE := fun a b => a ++ " - (" ++ b ++ ")"
  solveEq := fun a b => [a ++ " ~ " ++ b]
  diff := fun s => "D[" ++ s ++ "]"
  printE := fun s => s
  printSols := fun l => "[" ++ String.intercalate ", " l ++ "]"

/-! ## Result composer (app.py `if analyze:` block, lines 160-186) -/

/-- The analyze branch of app.py: given the math-engine state, the sidebar
`use_math` checkbox and the raw query, produce
(summary, deep_dive, visualization_note, sources). -/
def analyze {α : Type} (E : Option (SymEngine α)) (use_math : Bool)
    (query : String) : String × String × String × String :=
  let subject := detect_subject (some query)
  if subject = "Math" ∧ use_math then
    let q_lower := pyLower query
    if strContains q_lower "derivative" || strContains q_lower "d/dx" then
      let p := derivative E query
      (p.1, p.2, "Use the \x27Visualization\x27 tab to plot functions (manual input).",
       "Local symbolic computation (sympy).")
    else
      let p := solve_equation E query
      (p.1, p.2, "Provide function form for plotting, e.g., \x27sin(x)\x27 or \x27x**2\x27.",
       "Local symbolic computation (sympy).")
  else
    let note := search_local_notes subject (some query)
    (note.summary,
     "Topic: " ++ note.topic ++
       "\n\nExpanded points:\n- Key ideas summarized from local notes.\n- You can refine content by editing data/*.csv.\n- This app avoids external calls for reliability.",
     "Visualization suggestions: timelines, bar charts, concept maps.",
     note.sources)

/-! ## Remote completion adapter (main.py `query_perplexity`, lines 53-75) -/

/-- JSON values, for the parsed body of a completion-service response. -/
inductive JVal where
  | str : String → JVal
  | num : Int → JVal
  | arr : List JVal → JVal
  | obj : List (String × JVal) → JVal
  | nul : JVal

/-- An HTTP response as the adapter consumes it: status code, raw text body,
and the parsed JSON body that `response.json()` would return. -/
structure HttpResponse where
  status_code : Nat
  text : String
  jsonBody : JVal

/-- main.py `query_perplexity`: the transport (`requests.post` with the fixed
request body) is a parameter mapping the prompt to the response.  The result is
the returned value together with the list of messages surfaced via
`st.error`, in emission order. -/
def query_perplexity (post : String → HttpResponse) (prompt : String) :
    Option JVal × List String :=
  let response := post prompt
  if response.status_code = 200 then (some response.jsonBody, [])
  else (none, ["Error: " ++ toString response.status_code, response.text])

/-- Field access on a JSON object, as Python `j[k]` (first binding wins). -/
def jget (j : JVal) (k : String) : Option JVal :=
  match j with
  | .obj fs => (fs.find? (fun p => decide (p.1 = k))).map (fun p => p.2)
  | _ => none

/-- Index access on a JSON array, as Python `j[n]`. -/
def jidx (j : JVal) (n : Nat) : Option JVal :=
  match j with
  | .arr l => l.get? n
  | _ => none

/-- The raw completion text of a response body:
`result["choices"][0]["message"]["content"]` (extracted by the caller in
main.py, line 91). -/
def completion_text (j : JVal) : Option JVal :=
  ((jget j "choices").bind (fun c => jidx c 0)).bind
    (fun m => (jget m "message").bind (fun n => jget n "content"))

/-- The adapter as amended claim C8 words it: on a non-success status surface
the status and body and return null; on success return the parsed JSON
response body (from which the caller extracts the completion text). -/
def completeSpecAmended (response : HttpResponse) : Option JVal × List String :=
  if response.status_code = 200 then (some response.jsonBody, [])
  else (none, ["Error: " ++ toString response.status_code, response.text])

/-- A concrete successful response whose completion text is "hi". -/
def sampleBody : JVal :=
  .obj [("choices", .arr [.obj [("message", .obj [("content", .str "hi")])]])]

def sampleResponse : HttpResponse := ⟨200, "ok-body", sampleBody⟩

def samplePost : String → HttpResponse := fun _ => sampleResponse

def failPost : String → HttpResponse := fun _ => ⟨503, "overloaded", .nul⟩

/-! ## Durable log (app.py lines 120-133)

`load_history` and `save_history` delegate the file format to
`pandas.read_csv` / `DataFrame.to_csv`.  The file is delimited tabular text
with a header row; data cells are VALUES, not bare strings: on reading,
pandas converts every cell equal to one of its default missing-value tokens
(such as "", "NaN", "NA", "null") to a missing value, and converts a column
to integers when every cell in it parses as an integer (so "007" is read back
as the integer 7).  `Cell` models the cell values these two conversions can
produce (text, integer, missing); writing prints an integer canonically and a
missing value as the empty field.  The reader's further conversions (float,
boolean, and date columns) are not modelled: every theorem below either
evaluates on concrete tables where those conversions cannot fire, or carries
an `isTextualCell` hypothesis that over-approximately excludes all cells any
of them could touch.  The file system state is `Option String`: `none` when
`vault_history.csv` does not exist, otherwise the file contents. -/

/-- The fixed column set of the history log. -/
def histColumns : List String :=
  ["timestamp", "subject", "query", "summary", "deep_dive", "sources"]

/-- One analysis record, as the `entry` dict built at app.py lines 216-223. -/
structure AnalysisRecord where
  timestamp : String
  subject : String
  query : String
  summary : String
  deep_dive : String
  sources : String
deriving DecidableEq

/-- The row of field texts a record contributes, in the fixed column order. -/
def recordRow (e : AnalysisRecord) : List String :=
  [e.timestamp, e.subject, e.query, e.summary, e.deep_dive, e.sources]

/-- The value of a record at a named column (used when aligning columns as
`pd.concat` does). -/
def entryVal (e : AnalysisRecord) (c : String) : String :=
  if c = "timestamp" then e.timestamp
  else if c = "subject" then e.subject
  else if c = "query" then e.query
  else if c = "summary" then e.summary
  else if c = "deep_dive" then e.deep_dive
  else if c = "sources" then e.sources
  else ""

/-- A cell value of the in-memory table: literal text, an inferred integer,
or a missing value (NaN). -/
inductive Cell where
  | str : String → Cell
  | intv : Int → Cell
  | nan : Cell
deriving DecidableEq

/-- The text `to_csv` writes for a cell: strings verbatim, integers in
canonical decimal form, missing values as the empty field. -/
def printCell : Cell → String
  | .str s => s
  | .intv n => toString n
  | .nan => ""

def printRow (r : List Cell) : List String :=
  r.map printCell

/-- A parsed tabular file: header column names and rows of cells. -/
abbrev Table := List String × List (List Cell)

/-- The default missing-value tokens of `pandas.read_csv`. -/
def NA_TOKENS : List String :=
  ["", "#N/A", "#N/A N/A", "#NA", "-1.#IND", "-1.#QNAN", "-NaN", "-nan",
   "1.#IND", "1.#QNAN", "<NA>", "N/A", "NA", "NULL", "NaN", "None", "n/a",
   "nan", "null"]

def isNaToken (s : String) : Bool :=
  NA_TOKENS.contains s

def isDigitsChars (l : List Char) : Bool :=
  !l.isEmpty && l.all (fun c => c.isDigit)

/-- Strip one leading sign character. -/
def dropSign : List Char → List Char
  | '+' :: ds => ds
  | '-' :: ds => ds
  | ds => ds

/-- Does the reader parse this cell as an integer (optional sign, digits)? -/
def isIntLike (s : String) : Bool :=
  isDigitsChars (dropSign s.data)

def digitsVal (ds : List Char) : Int :=
  ds.foldl (fun a c => a * 10 + Int.ofNat (c.toNat - '0'.toNat)) 0

/-- The integer value of an `isIntLike` cell. -/
def parseIntPy (s : String) : Int :=
  match s.data with
  | '-' :: ds => - digitsVal ds
  | ds => digitsVal (dropSign ds)

/-- Characters that can occur in a numeric cell (over-approximation). -/
def floatChar (c : Char) : Bool :=
  c.isDigit || c = '+' || c = '-' || c = '.' || c = 'e' || c = 'E' || c = '_' ||
  c = ' ' || c = '\t'

/-- Over-approximation of the cells the reader could parse as a (floating or
integral) number: built only from numeric characters, or an infinity
spelling.  Every `isIntLike` cell is `isFloatLike`. -/
def isFloatLike (s : String) : Bool :=
  (!s.data.isEmpty && s.data.all floatChar) ||
  (["inf", "infinity"].contains
    (pyLower (String.mk (s.data.filter (fun c => c ≠ ' ' && c ≠ '+' && c ≠ '-')))))

/-- The boolean spellings the reader converts in an all-boolean column. -/
def isBoolToken (s : String) : Bool :=
  ["True", "TRUE", "true", "False", "FALSE", "false"].contains s

/-- A cell the tabular reader is guaranteed to keep as literal text: not a
missing-value token and not number- or boolean-like.  (Sufficient condition;
date parsing is off by default, so no further reader conversion applies.) -/
def isTextualCell (s : String) : Bool :=
  !isNaToken s && !isFloatLike s && !isBoolToken s

/-- Convert one read cell: missing-value tokens become NaN; in a column read
as integers the cell becomes its integer value; otherwise the text is kept. -/
def convertCell (isIntCol : Bool) (s : String) : Cell :=
  if isNaToken s then Cell.nan
  else if isIntCol then Cell.intv (parseIntPy s)
  else Cell.str s

/-- Is column `j` read as an integer column: every cell of every row parses
as an integer (a missing cell blocks the conversion)? -/
def colIsIntLike (rows : List (List String)) (j : Nat) : Bool :=
  rows.all (fun r => isIntLike (r.getD j ""))

def convertRow (flags : List Bool) (r : List String) : List Cell :=
  List.zipWith convertCell flags r

/-- Column-wise value conversion of the read rows (width `w`). -/
def convertTable (w : Nat) (rows : List (List String)) : List (List Cell) :=
  rows.map (convertRow ((List.range w).map (colIsIntLike rows)))

/-- Does a CSV field need quoting under QUOTE_MINIMAL?  The csv writer quotes
fields containing the delimiter, the quote character, or a line break. -/
def needsQuote (s : List Char) : Bool :=
  s.any (fun c => c = ',' || c = '"' || c = '\n' || c = '\r')

/-- Double every quote character (the escaping used inside quoted fields). -/
def escapeQuotes : List Char → List Char
  | [] => []
  | c :: rest =>
    if c = '"' then '"' :: '"' :: escapeQuotes rest
    else c :: escapeQuotes rest

/-- Render one field, quoting it when needed. -/
def renderField (f : String) : List Char :=
  if needsQuote f.data then '"' :: (escapeQuotes f.data ++ ['"'])
  else f.data

/-- Render one row: fields joined by commas. -/
def renderRow : List String → List Char
  | [] => []
  | [f] => renderField f
  | f :: rest => renderField f ++ ',' :: renderRow rest

/-- Render a sequence of rows, each terminated by a newline. -/
def renderTable : List (List String) → List Char
  | [] => []
  | r :: rest => renderRow r ++ '\n' :: renderTable rest

/-- `DataFrame.to_csv(index=False)`: header row followed by the printed data
rows. -/
def to_csv (t : Table) : String :=
  String.mk (renderTable (t.1 :: t.2.map printRow))

/-- CSV scanner.  Arguments: remaining input, inside-quotes flag, current
field (reversed), current row (fields in reverse order).  Blank lines are
skipped, a quote opens a quoted field only at field start, doubled quotes
inside a quoted field denote a literal quote, and input ending mid-field
closes the final row. -/
def csvAux : List Char → Bool → List Char → List String → List (List String)
  | [], inQ, curF, curRow =>
    if !inQ && curF.isEmpty && curRow.isEmpty then []
    else [(String.mk curF.reverse :: curRow).reverse]
  | '"' :: '"' :: rest, true, curF, curRow => csvAux rest true ('"' :: curF) curRow
  | '"' :: rest, true, curF, curRow => csvAux rest false curF curRow
  | c :: rest, true, curF, curRow => csvAux rest true (c :: curF) curRow
  | ',' :: rest, false, curF, curRow =>
    csvAux rest false [] (String.mk curF.reverse :: curRow)
  | '\n' :: rest, false, curF, curRow =>
    if curF.isEmpty && curRow.isEmpty then csvAux rest false [] []
    else (String.mk curF.reverse :: curRow).reverse :: csvAux rest false [] []
  | '"' :: rest, false, curF, curRow =>
    if curF.isEmpty then csvAux rest true curF curRow
    else csvAux rest false ('"' :: curF) curRow
  | c :: rest, false, curF, curRow => csvAux rest false (c :: curF) curRow

/-- Parse CSV text into rows of field texts. -/
def csvParse (s : String) : List (List String) :=
  csvAux s.data false [] []

/-- `pandas.read_csv`: the first parsed row is the header (kept as names);
empty content raises `EmptyDataError` and a row with more fields than the
header raises a tokenizer `ParserError` (both modelled as `.error`); rows with
fewer fields are padded with missing cells (an empty field is a missing-value
token); then the cell values are converted column-wise as described above. -/
def read_csv (s : String) : Except Unit Table :=
  match csvParse s with
  | [] => .error ()
  | header :: rows =>
    if rows.all (fun r => r.length ≤ header.length) then
      .ok (header,
        convertTable header.length
          (rows.map (fun r => r ++ List.replicate (header.length - r.length) "")))
    else .error ()

/-- app.py `load_history`: missing file or failing read gives the empty table
with the fixed six columns. -/
def load_history (file : Option String) : Table :=
  match file with
  | none => (histColumns, [])
  | some s =>
    match read_csv s with
    | .ok t => t
    | .error _ => (histColumns, [])

/-- `pd.concat([df, pd.DataFrame([entry])], ignore_index=True)`: columns are
aligned by name (the columns of `df` first, then any entry columns not already
present); cells absent from a row are filled with NaN; the entry's own
values are the strings of the `entry` dict. -/
def concatEntry (t : Table) (e : AnalysisRecord) : Table :=
  let extra := histColumns.filter (fun c => decide (c ∉ t.1))
  let allCols := t.1 ++ extra
  (allCols,
   t.2.map (fun r => r ++ List.replicate extra.length Cell.nan) ++
     [allCols.map (fun c => if c ∈ histColumns then Cell.str (entryVal e c) else Cell.nan)])

/-- app.py `save_history`: read-modify-write of the whole log. -/
def save_history (e : AnalysisRecord) (file : Option String) : Option String :=
  some (to_csv (concatEntry (load_history file) e))

/-- A concrete analysis record for witnesses. -/
def sampleRecord : AnalysisRecord :=
  ⟨"2024-01-01T00:00:00", "Science", "Explain photosynthesis",
   "Plants convert light energy into chemical energy, producing glucose and oxygen from CO2 and water in chloroplasts.",
   "Topic: Photosynthesis", "Intro biology references."⟩

/-- A record whose query is an all-digit text and whose summary is a
missing-value token: the reader does not give either back verbatim. -/
def oddRecord : AnalysisRecord :=
  ⟨"2024-01-01T00:00:00", "Science", "007", "NaN", "Topic: History",
   "Local notes."⟩

/-- The Photosynthesis note (first entry of `SCIENCE_NOTES`). -/
def photosynthesisNote : Note :=
  ⟨"Photosynthesis",
   "Plants convert light energy into chemical energy, producing glucose and oxygen from CO2 and water in chloroplasts.",
   "Intro biology references."⟩

/-! ## Claim C1: classifier priority order -/

/-- C1: for every query string, each classifier tests the categories in the
fixed priority order Math, Science, History, Literature and returns the first
category one of whose keywords occurs as a substring of the lower-cased query,
with General as the catch-all — so when keywords of several categories are
present, the earliest category in that order wins.  This holds for the
classifier of app.py (with its keyword table) and the classifier of main.py
(with its keyword table). -/
theorem classifier_priority_order :
    (∀ q : String, detect_subject (some q) = classifySpec SUBJECT_KEYWORDS q) ∧
    (∀ q : String, detect_subject_main q = classifySpec MAIN_KEYWORDS q) := by
  constructor
  · intro q
    show (match firstHit (fun p => p.2.any (fun w => strContains (pyLower q) w))
        SUBJECT_KEYWORDS with
      | some p => p.1
      | none => "General") = _
    rw [firstHit_eq_find?]
    rfl
  · intro q
    by_cases h1 : ["integral", "derivative", "equation", "solve", "∫", "∑"].any
        (fun w => strContains (pyLower q) w) = true <;>
    by_cases h2 : ["experiment", "hypothesis", "reaction", "photosynthesis",
        "biology", "chemistry"].any (fun w => strContains (pyLower q) w) = true <;>
    by_cases h3 : ["timeline", "revolution", "world war", "causes", "history"].any
        (fun w => strContains (pyLower q) w) = true <;>
    by_cases h4 : ["theme", "character", "metaphor", "poem", "novel", "literature",
        "analysis"].any (fun w => strContains (pyLower q) w) = true <;>
    simp [detect_subject_main, classifySpec, MAIN_KEYWORDS, List.find?, h1, h2, h3, h4]

/-! ## Claim C2: empty and null queries -/

/-- C2 counterexample: the claim asserts that classify(None) returns General
without raising in BOTH implementations; in main.py, `query.lower()` on `None`
raises `AttributeError` instead (modelled as `none`), so the main.py
classifier does not return General there. -/
theorem classify_none_main_counterexample :
    detect_subject_mainQ none = none ∧ detect_subject_mainQ none ≠ some "General" :=
  ⟨rfl, by decide⟩

/-- C2 amended: classify("") returns General in both implementations, and
classify(None) returns General (without raising) in the app.py implementation;
the main.py implementation raises on None instead of returning. -/
theorem classify_empty_none_amended :
    detect_subject (some "") = "General" ∧
    detect_subject none = "General" ∧
    detect_subject_mainQ (some "") = some "General" ∧
    detect_subject_mainQ none = none :=
  ⟨by decide, by decide, by decide, rfl⟩

/-! ## Claim C3: knowledge lookup -/

theorem match_firstHit_eq (p : Note → Bool) (notes : List Note) :
    (match firstHit p notes with
     | some item => item
     | none =>
       match notes with
       | n :: _ => n
       | [] => fallbackNote) =
      (Option.orElse (notes.find? p) (fun _ => notes.head?)).getD fallbackNote := by
  rw [firstHit_eq_find?]
  cases hf : notes.find? p with
  | some item => simp [Option.orElse]
  | none =>
    cases notes with
    | nil => simp [Option.orElse]
    | cons n t => simp [Option.orElse]

/-- C3: for every category and query the lookup is total and follows the
spec's algorithm — select the category's static list (Math's list is empty,
unknown categories fall back to the General list), lower-case and
whitespace-split the query, return the first note in list order whose
lower-cased topic-plus-summary blob contains some token, otherwise the first
note, and the hardcoded fallback note when the list is empty; in particular
the Math lookup returns the hardcoded fallback note for every query. -/
theorem lookup_matches_spec :
    (∀ (s q : String), search_local_notes s (some q) = lookupSpec s q) ∧
    (∀ q : String, search_local_notes "Math" (some q) = fallbackNote) := by
  constructor
  · intro s q
    exact match_firstHit_eq _ _
  · intro q
    rfl

/-! ## Claim C4: equation solving control flow -/

theorem splitOnChar_ne_nil (sep : Char) (l : List Char) : splitOnChar sep l ≠ [] := by
  cases l with
  | nil => simp [splitOnChar]
  | cons c rest =>
    simp only [splitOnChar]
    split
    · simp
    · split <;> simp

theorem splitOnChar_length (sep : Char) (l : List Char) :
    (splitOnChar sep l).length = l.count sep + 1 := by
  induction l with
  | nil => simp [splitOnChar]
  | cons c rest ih =>
    by_cases h : c = sep
    · simp [splitOnChar, h, List.count_cons, ih]
    · simp only [splitOnChar, if_neg h]
      cases hs : splitOnChar sep rest with
      | nil => exact absurd hs (splitOnChar_ne_nil sep rest)
      | cons p ps =>
        rw [hs] at ih
        simp only [List.length_cons] at ih ⊢
        simp [List.count_cons, h]
        omega

theorem splitOnChar_count_zero (sep : Char) (l : List Char) (h : l.count sep = 0) :
    splitOnChar sep l = [l] := by
  induction l with
  | nil => rfl
  | cons c rest ih =>
    have hc : c ≠ sep := by
      intro he
      simp [List.count_cons, he] at h
    have hr : rest.count sep = 0 := by
      simp [List.count_cons, hc] at h
      exact h
    simp [splitOnChar, if_neg hc, ih hr]

theorem splitOnChar_count_one (sep : Char) (l : List Char) (h : l.count sep = 1) :
    splitOnChar sep l =
      [l.takeWhile (fun c => c ≠ sep), (l.dropWhile (fun c => c ≠ sep)).tail] := by
  induction l with
  | nil => simp at h
  | cons c rest ih =>
    by_cases hc : c = sep
    · subst hc
      have hr : rest.count c = 0 := by
        simp [List.count_cons] at h
        omega
      simp [splitOnChar, splitOnChar_count_zero _ _ hr, List.takeWhile_cons,
        List.dropWhile_cons]
    · have hr : rest.count sep = 1 := by
        simp [List.count_cons, hc] at h
        exact h
      simp [splitOnChar, if_neg hc, ih hr, List.takeWhile_cons, List.dropWhile_cons, hc]

theorem isSubChars_singleton (c : Char) (l : List Char) :
    isSubChars [c] l = true ↔ c ∈ l := by
  induction l with
  | nil => simp [isSubChars]
  | cons d rest ih =>
    simp [isSubChars, isPrefixChars, ih, List.mem_cons]

theorem strContains_eq_mem (s : String) :
    strContains s "=" = true ↔ '=' ∈ s.data :=
  isSubChars_singleton '=' s.data

/-- C4 counterexample: on the expression "1=2=3" (two equals signs) the code
does NOT split at the first occurrence and solve; `expression.split("=")`
yields three parts, the two-variable unpacking raises `ValueError`, and the
recovered result is the parse-error pair — whereas the claimed first-occurrence
split would report a solution (exhibited with the all-parsing engine
`idEngine`). -/
theorem solve_split_first_counterexample :
    solve_equation (some idEngine) "1=2=3" = parseErrPair unpackErrMsg ∧
    solveSpecClaim idEngine "1=2=3" =
      ("Solution: x = [1 ~ 2=3]",
       "Simplified equation: 1 - (2=3) = 0\nSymbolic solve steps use sympy\x27s algebraic methods.") ∧
    solve_equation (some idEngine) "1=2=3" ≠ solveSpecClaim idEngine "1=2=3" :=
  ⟨rfl, rfl, by decide⟩

/-- C4 amended: for every engine and expression, if the expression contains
exactly one equals sign, solve splits it into left and right substrings at
that (first) occurrence, builds the equation, solves for x and reports the
collection of solutions; if it contains two or more equals signs, the split
produces more than two parts and the recovered result is the parse-error pair
for the failed unpacking; with no equals sign it simplifies the expression and
reports the simplified form with guidance that an equation is needed. -/
theorem solve_equation_amended {α : Type} (e : SymEngine α) (expr : String) :
    solve_equation (some e) expr = solveSpecAmended e expr := by
  rcases h1 : expr.data.count '=' with _ | n
  · have hmem : '=' ∉ expr.data := List.count_eq_zero.mp h1
    have hc : strContains expr "=" = false :=
      Bool.eq_false_iff.mpr (fun ht => hmem ((strContains_eq_mem expr).mp ht))
    simp [solve_equation, solveSpecAmended, hc, h1]
  · have hmem : '=' ∈ expr.data := by
      by_contra hn
      rw [← List.count_eq_zero] at hn
      omega
    have hc : strContains expr "=" = true := (strContains_eq_mem expr).mpr hmem
    rcases n with _ | m
    · have hsp := splitOnChar_count_one '=' expr.data h1
      simp [solve_equation, solveSpecAmended, hc, h1, hsp]
    · have h2 : ¬ expr.data.count '=' = 1 := by omega
      have h3 : 2 ≤ expr.data.count '=' := by omega
      have hlen : (splitOnChar '=' expr.data).length = m + 3 := by
        rw [splitOnChar_length, h1]
      rcases hs : splitOnChar '=' expr.data with _ | ⟨a, _ | ⟨b, _ | ⟨c, rest⟩⟩⟩
      · exact absurd hs (splitOnChar_ne_nil _ _)
      · rw [hs] at hlen
        simp at hlen
      · rw [hs] at hlen
        simp at hlen
      · simp [solve_equation, solveSpecAmended, hc, hs, if_neg h2, if_pos h3]

/-! ## Claim C5: math evaluator never raises -/

/-- C5: `solve_equation` and `derivative` are total and recover every failure:
with the symbolic library absent (engine `none`) each returns its fixed
unavailable pair explaining the missing dependency, and whenever parsing the
input fails (at the whole expression, or at either side of a split equation)
the result is the recovered error pair whose text embeds the underlying
parser's diagnostic message.  Totality is inherent: both are plain functions
of their input. -/
theorem solve_derivative_recovery {α : Type} (e : SymEngine α) (expr m : String) :
    (solve_equation (none : Option (SymEngine α)) expr =
      ("Math solver unavailable",
       "Install sympy to enable solving: `pip install sympy`. The app avoids external APIs and uses local computation.")) ∧
    (derivative (none : Option (SymEngine α)) expr =
      ("Derivative unavailable",
       "Install sympy to enable derivatives: `pip install sympy`.")) ∧
    (strContains expr "=" = false → e.sympify expr = .error m →
      solve_equation (some e) expr = parseErrPair m) ∧
    (∀ left right : List Char, splitOnChar '=' expr.data = [left, right] →
      strContains expr "=" = true → e.sympify (String.mk left) = .error m →
      solve_equation (some e) expr = parseErrPair m) ∧
    (∀ (left right : List Char) (lhs : α), splitOnChar '=' expr.data = [left, right] →
      strContains expr "=" = true → e.sympify (String.mk left) = .ok lhs →
      e.sympify (String.mk right) = .error m →
      solve_equation (some e) expr = parseErrPair m) ∧
    (e.sympify expr = .error m →
      derivative (some e) expr =
        ("Could not compute derivative", "Check expression validity. Error: " ++ m)) := by
  refine ⟨rfl, rfl, ?_, ?_, ?_, ?_⟩
  · intro hc he
    simp [solve_equation, hc, he]
  · intro left right hs hc he
    simp [solve_equation, hc, hs, he]
  · intro left right lhs hs hc hl hr
    simp [solve_equation, hc, hs, hl, hr]
  · intro he
    simp [derivative, he]

/-- Witness for C5 at concrete inputs, using the engine that rejects "bad"
with message "boom". -/
theorem solve_derivative_recovery_witness :
    (solve_equation (none : Option (SymEngine String)) "x" =
      ("Math solver unavailable",
       "Install sympy to enable solving: `pip install sympy`. The app avoids external APIs and uses local computation.")) ∧
    (derivative (none : Option (SymEngine String)) "x" =
      ("Derivative unavailable",
       "Install sympy to enable derivatives: `pip install sympy`.")) ∧
    (strContains "bad" "=" = false ∧
      solve_equation (some errEngine) "bad" = parseErrPair "boom") ∧
    (strContains "bad=2" "=" = true ∧
      solve_equation (some errEngine) "bad=2" = parseErrPair "boom") ∧
    (strContains "2=bad" "=" = true ∧
      solve_equation (some errEngine) "2=bad" = parseErrPair "boom") ∧
    derivative (some errEngine) "bad" =
      ("Could not compute derivative", "Check expression validity. Error: boom") :=
  ⟨(solve_derivative_recovery errEngine "x" "m").1,
   (solve_derivative_recovery errEngine "x" "m").2.1,
   ⟨by decide, (solve_derivative_recovery errEngine "bad" "boom").2.2.1 (by decide) rfl⟩,
   ⟨by decide, (solve_derivative_recovery errEngine "bad=2" "boom").2.2.2.1
      "bad".data "2".data rfl (by decide) rfl⟩,
   ⟨by decide, (solve_derivative_recovery errEngine "2=bad" "boom").2.2.2.2.1
      "2".data "bad".data "2" rfl (by decide) rfl rfl⟩,
   (solve_derivative_recovery errEngine "bad" "boom").2.2.2.2.2 rfl⟩

/-! ## Claims C6 and C7: durable log round-trip and corrupt-log recovery -/

theorem mkData (s : String) : String.mk s.data = s := rfl

theorem csvAux_unquoted_run (l : List Char)
    (h : ∀ c ∈ l, c ≠ ',' ∧ c ≠ '\n' ∧ c ≠ '"') :
    ∀ (rest : List Char) (curF : List Char) (curRow : List String),
    csvAux (l ++ rest) false curF curRow = csvAux rest false (l.reverse ++ curF) curRow := by
  induction l with
  | nil =>
    intro rest curF curRow
    simp
  | cons c l' ih =>
    intro rest curF curRow
    obtain ⟨h1, h2, h3⟩ := h c (List.mem_cons_self c l')
    rw [List.cons_append, csvAux.eq_8 curF curRow c (l' ++ rest) h1 h2 h3,
      ih (fun d hd => h d (List.mem_cons_of_mem c hd)) rest (c :: curF) curRow]
    simp

theorem csvAux_quoted_run (l : List Char) :
    ∀ (rest : List Char) (curF : List Char) (curRow : List String),
    csvAux (escapeQuotes l ++ rest) true curF curRow =
      csvAux rest true (l.reverse ++ curF) curRow := by
  induction l with
  | nil =>
    intro rest curF curRow
    simp [escapeQuotes]
  | cons c l' ih =>
    intro rest curF curRow
    by_cases hc : c = '"'
    · subst hc
      rw [show escapeQuotes ('"' :: l') = '"' :: '"' :: escapeQuotes l' from rfl,
        List.cons_append, List.cons_append, csvAux.eq_2, ih]
      simp
    · simp only [escapeQuotes, if_neg hc]
      rw [List.cons_append,
        csvAux.eq_4 curF curRow c (escapeQuotes l' ++ rest) (fun r1 hcq _ => hc hcq) hc,
        ih]
      simp

theorem csvAux_field (f : String) (rest : List Char) (curRow : List String)
    (hrest : ∀ r1 : List Char, rest ≠ '"' :: r1) :
    csvAux (renderField f ++ rest) false [] curRow =
      csvAux rest false f.data.reverse curRow := by
  by_cases hq : needsQuote f.data = true
  · simp only [renderField, if_pos hq]
    rw [List.cons_append, csvAux.eq_7]
    simp only [List.isEmpty_nil, if_pos]
    rw [List.append_assoc, show (['"'] ++ rest : List Char) = '"' :: rest from rfl,
      csvAux_quoted_run]
    rw [csvAux.eq_3 _ _ rest (fun r1 hr => absurd hr (hrest r1))]
    simp
  · have h3 : ∀ c ∈ f.data, c ≠ ',' ∧ c ≠ '\n' ∧ c ≠ '"' := by
      intro c hc
      have hb : ¬ (c = ',' || c = '"' || c = '\n' || c = '\r') = true := by
        intro hb
        exact hq (List.any_eq_true.mpr ⟨c, hc, hb⟩)
      simp at hb
      tauto
    simp only [renderField, if_neg hq]
    rw [csvAux_unquoted_run f.data h3]
    simp

theorem csvAux_row (fs : List String) :
    ∀ (f : String) (curRow : List String) (rest : List Char),
    (curRow ≠ [] ∨ fs ≠ [] ∨ f ≠ "") →
    csvAux (renderRow (f :: fs) ++ '\n' :: rest) false [] curRow =
      (curRow.reverse ++ f :: fs) :: csvAux rest false [] [] := by
  induction fs with
  | nil =>
    intro f curRow rest h
    rw [show renderRow [f] = renderField f from rfl,
      csvAux_field f ('\n' :: rest) curRow
        (fun r1 hr => absurd (List.cons.inj hr).1 (by decide)),
      csvAux.eq_6]
    have hcond : (f.data.reverse.isEmpty && curRow.isEmpty) = false := by
      rcases h with h | h | h
      · simp [List.isEmpty_iff, h]
      · exact absurd rfl h
      · have hd : f.data ≠ [] := fun hd => h (String.ext (by simp [hd]))
        simp [List.isEmpty_iff, hd]
    rw [hcond]
    simp [mkData]
  | cons f' fs' ih =>
    intro f curRow rest h
    rw [show renderRow (f :: f' :: fs') = renderField f ++ ',' :: renderRow (f' :: fs')
        from rfl,
      show (renderField f ++ ',' :: renderRow (f' :: fs')) ++ '\n' :: rest =
        renderField f ++ (',' :: (renderRow (f' :: fs') ++ '\n' :: rest)) by simp,
      csvAux_field f _ curRow (fun r1 hr => absurd (List.cons.inj hr).1 (by decide)),
      csvAux.eq_5,
      ih f' (String.mk f.data.reverse.reverse :: curRow) rest (Or.inl (by simp))]
    simp [mkData]

theorem csvAux_table (rows : List (List String))
    (h : ∀ r ∈ rows, 2 ≤ r.length) :
    csvAux (renderTable rows) false [] [] = rows := by
  induction rows with
  | nil =>
    rw [show renderTable [] = ([] : List Char) from rfl, csvAux.eq_1]
    simp
  | cons r rest ih =>
    have hr := h r (List.mem_cons_self r rest)
    rcases r with _ | ⟨f, _ | ⟨f', fs⟩⟩
    · simp at hr
    · simp at hr
    · rw [show renderTable ((f :: f' :: fs) :: rest) =
          renderRow (f :: f' :: fs) ++ '\n' :: renderTable rest from rfl,
        csvAux_row (f' :: fs) f [] (renderTable rest) (Or.inr (Or.inl (by simp))),
        ih (fun r hrm => h r (List.mem_cons_of_mem _ hrm))]
      simp

theorem intLike_floatLike (s : String) (h : isIntLike s = true) :
    isFloatLike s = true := by
  simp only [isFloatLike, Bool.or_eq_true]
  left
  simp only [isIntLike] at h
  rcases hd : s.data with _ | ⟨c, rest⟩
  · rw [hd] at h
    simp [dropSign, isDigitsChars] at h
  · rw [hd] at h
    by_cases hp : c = '+'
    · subst hp
      rw [dropSign.eq_1] at h
      simp only [isDigitsChars, Bool.and_eq_true, List.all_eq_true] at h
      simp only [Bool.and_eq_true, List.all_eq_true]
      refine ⟨by simp, ?_⟩
      intro x hx
      rcases List.mem_cons.mp hx with rfl | hx
      · simp [floatChar]
      · simp [floatChar, h.2 x hx]
    · by_cases hm : c = '-'
      · subst hm
        rw [dropSign.eq_2] at h
        simp only [isDigitsChars, Bool.and_eq_true, List.all_eq_true] at h
        simp only [Bool.and_eq_true, List.all_eq_true]
        refine ⟨by simp, ?_⟩
        intro x hx
        rcases List.mem_cons.mp hx with rfl | hx
        · simp [floatChar]
        · simp [floatChar, h.2 x hx]
      · rw [dropSign.eq_3 (c :: rest)
            (fun ds h1 => hp (List.cons.inj h1).1)
            (fun ds h1 => hm (List.cons.inj h1).1)] at h
        simp only [isDigitsChars, Bool.and_eq_true, List.all_eq_true] at h
        simp only [Bool.and_eq_true, List.all_eq_true]
        exact ⟨by simp, fun x hx => by simp [floatChar, h.2 x hx]⟩

theorem textual_not_intLike (s : String) (h : isTextualCell s = true) :
    isIntLike s = false := by
  cases hb : isIntLike s
  · rfl
  · have hf := intLike_floatLike s hb
    simp [isTextualCell, hf] at h

theorem textual_not_na (s : String) (h : isTextualCell s = true) :
    isNaToken s = false := by
  simp only [isTextualCell, Bool.and_eq_true, Bool.not_eq_true'] at h
  exact h.1.1

theorem convertRow_false (r : List String) (h : ∀ s ∈ r, isNaToken s = false) :
    convertRow (List.replicate r.length false) r = r.map Cell.str := by
  induction r with
  | nil => rfl
  | cons a t ih =>
    show convertRow (false :: List.replicate t.length false) (a :: t) = _
    simp only [convertRow, List.zipWith_cons_cons, List.map_cons]
    rw [show convertCell false a = Cell.str a by
      simp [convertCell, h a (List.mem_cons_self a t)]]
    rw [show List.zipWith convertCell (List.replicate t.length false) t =
        convertRow (List.replicate t.length false) t from rfl]
    rw [ih (fun x hx => h x (List.mem_cons_of_mem a hx))]

theorem convertTable_textual (w : Nat) (rows : List (List String))
    (hw : ∀ r ∈ rows, r.length = w)
    (ht : ∀ r ∈ rows, ∀ s ∈ r, isTextualCell s = true) :
    convertTable w rows = rows.map (List.map Cell.str) := by
  cases rows with
  | nil => rfl
  | cons r0 rest =>
    have hflags : (List.range w).map (colIsIntLike (r0 :: rest)) =
        List.replicate w false := by
      rw [List.eq_replicate_iff]
      refine ⟨by simp, ?_⟩
      intro b hb
      simp only [List.mem_map, List.mem_range] at hb
      obtain ⟨j, hj, rfl⟩ := hb
      have hj0 : j < r0.length := by
        rw [hw r0 (List.mem_cons_self r0 rest)]
        exact hj
      have hget : r0.getD j "" = r0[j] := List.getD_eq_getElem r0 "" hj0
      have hcell : isTextualCell (r0.getD j "") = true := by
        rw [hget]
        exact ht r0 (List.mem_cons_self r0 rest) _ (List.getElem_mem hj0)
      have hInt : isIntLike (r0.getD j "") = false := textual_not_intLike _ hcell
      simp only [colIsIntLike, List.all_cons, hInt, Bool.false_and]
    show (r0 :: rest).map
        (convertRow ((List.range w).map (colIsIntLike (r0 :: rest)))) = _
    rw [hflags]
    apply List.map_congr_left
    intro r hr
    rw [show (List.replicate w false) = List.replicate r.length false by rw [hw r hr]]
    exact convertRow_false r (fun x hx => textual_not_na x (ht r hr x hx))

theorem convertRow_length (flags : List Bool) (r : List String)
    (h : flags.length = r.length) : (convertRow flags r).length = r.length := by
  simp [convertRow, h]

theorem convertTable_length (w : Nat) (rows : List (List String)) :
    (convertTable w rows).length = rows.length := by
  simp [convertTable]

theorem convertTable_width (w : Nat) (rows : List (List String))
    (hw : ∀ r ∈ rows, r.length = w) :
    ∀ r ∈ convertTable w rows, r.length = w := by
  intro r hr
  simp only [convertTable, List.mem_map] at hr
  obtain ⟨sr, hsr, rfl⟩ := hr
  rw [convertRow_length]
  · exact hw sr hsr
  · simp [hw sr hsr]

theorem printRow_str (r : List String) : printRow (r.map Cell.str) = r := by
  induction r with
  | nil => rfl
  | cons a t ih =>
    show printCell (Cell.str a) :: printRow (t.map Cell.str) = a :: t
    rw [ih]
    rfl

/-- Writing a table and reading it back parses the text exactly and then
applies the reader's value conversion to the printed cells — for any header of
at least two columns and rows matching the header width; field texts may
contain commas, quotes and newlines. -/
theorem read_csv_to_csv (cols : List String) (rows : List (List Cell))
    (h2 : 2 ≤ cols.length) (h : ∀ r ∈ rows, r.length = cols.length) :
    read_csv (to_csv (cols, rows)) =
      .ok (cols, convertTable cols.length (rows.map printRow)) := by
  have hlen : ∀ r ∈ rows.map printRow, r.length = cols.length := by
    intro r hr
    simp only [List.mem_map] at hr
    obtain ⟨cr, hcr, rfl⟩ := hr
    simp [printRow, h cr hcr]
  have hall : ∀ r ∈ cols :: rows.map printRow, 2 ≤ r.length := by
    intro r hr
    rcases List.mem_cons.mp hr with rfl | hr
    · exact h2
    · rw [hlen r hr]
      exact h2
  have hparse : csvParse (to_csv (cols, rows)) = cols :: rows.map printRow := by
    show csvAux (String.mk (renderTable (cols :: rows.map printRow))).data false [] [] = _
    rw [show (String.mk (renderTable (cols :: rows.map printRow))).data =
        renderTable (cols :: rows.map printRow) from rfl]
    exact csvAux_table _ hall
  have hmap : ∀ rs : List (List String), (∀ r ∈ rs, r.length = cols.length) →
      rs.map (fun r => r ++ List.replicate (cols.length - r.length) "") = rs := by
    intro rs hrs
    induction rs with
    | nil => rfl
    | cons a t iht =>
      simp only [List.map_cons]
      rw [hrs a (List.mem_cons_self a t), Nat.sub_self, List.replicate_zero,
        List.append_nil, iht (fun r hr => hrs r (List.mem_cons_of_mem _ hr))]
  have hle : (rows.map printRow).all (fun r => r.length ≤ cols.length) = true := by
    rw [List.all_eq_true]
    intro r hr
    simp [hlen r hr]
  simp only [read_csv, hparse, hle, if_true, hmap _ hlen]

/-- Concatenating an entry to a table that already has the standard columns
appends exactly the record's row of text cells. -/
theorem concat_std (rows : List (List Cell)) (e : AnalysisRecord) :
    concatEntry (histColumns, rows) e =
      (histColumns, rows ++ [(recordRow e).map Cell.str]) := by
  have hfilter : histColumns.filter (fun c => decide (c ∉ histColumns)) = [] := by decide
  simp only [concatEntry, hfilter]
  simp [recordRow, entryVal, histColumns]

/-- The first append, on a missing file, writes exactly the header and the
record's row. -/
theorem save_none (e : AnalysisRecord) :
    save_history e none = some (to_csv (histColumns, [(recordRow e).map Cell.str])) := by
  simp only [save_history]
  rw [show load_history none = (histColumns, []) from rfl, concat_std]
  simp

theorem load_roundtrip (rows : List (List String))
    (hw : ∀ r ∈ rows, r.length = 6)
    (ht : ∀ r ∈ rows, ∀ s ∈ r, isTextualCell s = true) :
    load_history (some (to_csv (histColumns, rows.map (List.map Cell.str)))) =
      (histColumns, rows.map (List.map Cell.str)) := by
  have hcells : ∀ r ∈ rows.map (List.map Cell.str), r.length = histColumns.length := by
    intro r hr
    simp only [List.mem_map] at hr
    obtain ⟨sr, hsr, rfl⟩ := hr
    simp [hw sr hsr, histColumns]
  have hrd := read_csv_to_csv histColumns (rows.map (List.map Cell.str)) (by decide) hcells
  have hpr : (rows.map (List.map Cell.str)).map printRow = rows := by
    rw [List.map_map]
    have hcong : ∀ r ∈ rows, (printRow ∘ List.map Cell.str) r = id r := by
      intro r hr
      simp [Function.comp, printRow_str]
    rw [List.map_congr_left hcong, List.map_id]
  rw [hpr] at hrd
  rw [convertTable_textual histColumns.length rows
      (fun r hr => (hw r hr).trans rfl) ht] at hrd
  simp only [load_history, hrd]

theorem roundtrip_aux (es : List AnalysisRecord)
    (hes : ∀ e ∈ es, ∀ s ∈ recordRow e, isTextualCell s = true) :
    ∀ rows : List (List String),
      (∀ r ∈ rows, r.length = 6) →
      (∀ r ∈ rows, ∀ s ∈ r, isTextualCell s = true) →
      load_history (es.foldl (fun file e => save_history e file)
        (some (to_csv (histColumns, rows.map (List.map Cell.str))))) =
        (histColumns, (rows ++ es.map recordRow).map (List.map Cell.str)) := by
  induction es with
  | nil =>
    intro rows hw ht
    simp [load_roundtrip rows hw ht]
  | cons e es' ih =>
    intro rows hw ht
    have hsave : save_history e
        (some (to_csv (histColumns, rows.map (List.map Cell.str)))) =
        some (to_csv (histColumns, (rows ++ [recordRow e]).map (List.map Cell.str))) := by
      simp only [save_history, load_roundtrip rows hw ht, concat_std]
      simp
    have hw2 : ∀ r ∈ rows ++ [recordRow e], r.length = 6 := by
      intro r hr
      rcases List.mem_append.mp hr with hr | hr
      · exact hw r hr
      · simp at hr
        subst hr
        rfl
    have ht2 : ∀ r ∈ rows ++ [recordRow e], ∀ s ∈ r, isTextualCell s = true := by
      intro r hr
      rcases List.mem_append.mp hr with hr | hr
      · exact ht r hr
      · simp at hr
        subst hr
        exact hes e (List.mem_cons_self e es')
    rw [List.foldl_cons, hsave,
      ih (fun e' he' => hes e' (List.mem_cons_of_mem e he')) (rows ++ [recordRow e]) hw2 ht2]
    simp

theorem load_save_general (cellRows : List (List Cell)) (e : AnalysisRecord)
    (hw : ∀ r ∈ cellRows, r.length = 6) :
    save_history e (some (to_csv (histColumns, cellRows))) =
      some (to_csv (histColumns,
        convertTable histColumns.length (cellRows.map printRow) ++
          [(recordRow e).map Cell.str])) ∧
    (convertTable histColumns.length (cellRows.map printRow) ++
        [(recordRow e).map Cell.str]).length = cellRows.length + 1 ∧
    (∀ r ∈ convertTable histColumns.length (cellRows.map printRow) ++
        [(recordRow e).map Cell.str], r.length = 6) := by
  have hw6 : ∀ r ∈ cellRows, r.length = histColumns.length :=
    fun r hr => (hw r hr).trans rfl
  have hrd := read_csv_to_csv histColumns cellRows (by decide) hw6
  have hwid : ∀ r2 ∈ cellRows.map printRow, r2.length = histColumns.length := by
    intro r2 hr2
    simp only [List.mem_map] at hr2
    obtain ⟨cr, hcr, rfl⟩ := hr2
    simp [printRow, hw6 cr hcr]
  refine ⟨?_, ?_, ?_⟩
  · simp only [save_history, load_history, hrd, concat_std]
  · simp [convertTable_length]
  · intro r hr
    rcases List.mem_append.mp hr with hr | hr
    · exact (convertTable_width histColumns.length (cellRows.map printRow) hwid r hr).trans rfl
    · simp at hr
      subst hr
      rfl

theorem history_shape_aux (es : List AnalysisRecord) :
    ∀ cellRows : List (List Cell), (∀ r ∈ cellRows, r.length = 6) →
      (load_history (es.foldl (fun file e => save_history e file)
        (some (to_csv (histColumns, cellRows))))).1 = histColumns ∧
      (load_history (es.foldl (fun file e => save_history e file)
        (some (to_csv (histColumns, cellRows))))).2.length =
        cellRows.length + es.length := by
  induction es with
  | nil =>
    intro cellRows hw
    have hrd := read_csv_to_csv histColumns cellRows (by decide)
      (fun r hr => (hw r hr).trans rfl)
    constructor
    · simp [load_history, hrd]
    · simp [load_history, hrd, convertTable_length]
  | cons e es' ih =>
    intro cellRows hw
    obtain ⟨hsave, hlen, hwid⟩ := load_save_general cellRows e hw
    rw [List.foldl_cons, hsave]
    obtain ⟨ih1, ih2⟩ := ih _ hwid
    refine ⟨ih1, ?_⟩
    rw [ih2, hlen]
    simp only [List.length_cons]
    omega

/-- C6 counterexample: fields are NOT always preserved verbatim.  For the
record whose query is "007" and whose summary is "NaN", appending it to an
empty log and reading the log back gives the integer 7 for the query (the
column is read as integers) and a missing value for the summary (a
missing-value token) — so the read-back row differs from the record's fields,
and its printed texts are "7" and "", not "007" and "NaN". -/
theorem history_roundtrip_counterexample :
    load_history (save_history oddRecord none) ≠
      (histColumns, [(recordRow oddRecord).map Cell.str]) ∧
    load_history (save_history oddRecord none) =
      (histColumns,
       [[Cell.str "2024-01-01T00:00:00", Cell.str "Science", Cell.intv 7, Cell.nan,
         Cell.str "Topic: History", Cell.str "Local notes."]]) ∧
    (load_history (save_history oddRecord none)).2.map printRow ≠
      [recordRow oddRecord] :=
  ⟨by decide, by decide, by decide⟩

/-- C6 amended: appending any list of records one by one from a non-existent
log and reading back always yields the fixed six-column header and exactly one
row per record, in append order; and whenever every field of every record is
kept as literal text by the reader (not a missing-value token and not number-
or boolean-like — commas, quotes and newlines are fine), every field of every
record is preserved verbatim, each intermediate append (including the first,
which creates the file with the header) preserving all prior rows. -/
theorem history_roundtrip_amended (es : List AnalysisRecord) :
    ((load_history (es.foldl (fun file e => save_history e file) none)).1 =
        histColumns ∧
     (load_history (es.foldl (fun file e => save_history e file) none)).2.length =
        es.length) ∧
    ((∀ e ∈ es, ∀ s ∈ recordRow e, isTextualCell s = true) →
      load_history (es.foldl (fun file e => save_history e file) none) =
        (histColumns, es.map (fun e => (recordRow e).map Cell.str))) := by
  constructor
  · cases es with
    | nil => exact ⟨rfl, rfl⟩
    | cons e es' =>
      rw [List.foldl_cons, save_none]
      have hwid : ∀ r ∈ [(recordRow e).map Cell.str], r.length = 6 := by
        intro r hr
        simp at hr
        subst hr
        simp [recordRow]
      obtain ⟨h1, h2⟩ := history_shape_aux es' [(recordRow e).map Cell.str] hwid
      refine ⟨h1, ?_⟩
      rw [h2]
      simp only [List.length_cons, List.length_singleton, List.length_nil]
      omega
  · intro ht
    cases es with
    | nil => rfl
    | cons e es' =>
      rw [List.foldl_cons, save_none]
      have haux := roundtrip_aux es'
        (fun e' he' => ht e' (List.mem_cons_of_mem e he'))
        [recordRow e]
        (by intro r hr; simp at hr; subst hr; rfl)
        (by intro r hr; simp at hr; subst hr; exact ht e (List.mem_cons_self e es'))
      rw [show to_csv (histColumns, [(recordRow e).map Cell.str]) =
          to_csv (histColumns, [recordRow e].map (List.map Cell.str)) from rfl, haux]
      simp

/-- Witness for the amended C6 at a one-record list whose fields are all kept
as literal text. -/
theorem history_roundtrip_amended_witness :
    (∀ e ∈ [sampleRecord], ∀ s ∈ recordRow e, isTextualCell s = true) ∧
    load_history (List.foldl (fun file e => save_history e file) none [sampleRecord]) =
      (histColumns, [(recordRow sampleRecord).map Cell.str]) :=
  ⟨by decide, (history_roundtrip_amended [sampleRecord]).2 (by decide)⟩

/-- C8 counterexample: on a success status the adapter returns the parsed
JSON response object, not the raw completion text — at a concrete 200
response whose completion text is "hi", `query_perplexity` returns the whole
body, which is not the string value "hi". -/
theorem completion_adapter_counterexample :
    (query_perplexity samplePost "any prompt").1 = some sampleBody ∧
    completion_text sampleBody = some (JVal.str "hi") ∧
    (query_perplexity samplePost "any prompt").1 ≠ some (JVal.str "hi") := by
  refine ⟨rfl, rfl, ?_⟩
  intro hcontra
  rw [show (query_perplexity samplePost "any prompt").1 = some sampleBody from rfl]
    at hcontra
  simp [sampleBody] at hcontra

/-- C8 amended: for every prompt, on a non-success status the adapter surfaces
the status and the response body to the user, returns null and raises nothing
past that boundary (it is a total function); on a success status it returns
the parsed JSON response body, from which the caller extracts the raw
completion text. -/
theorem completion_adapter_amended (post : String → HttpResponse) (prompt : String) :
    (¬ (post prompt).status_code = 200 →
      query_perplexity post prompt =
        (none, ["Error: " ++ toString (post prompt).status_code, (post prompt).text])) ∧
    ((post prompt).status_code = 200 →
      query_perplexity post prompt = (some (post prompt).jsonBody, [])) := by
  constructor
  · intro h
    simp [query_perplexity, h]
  · intro h
    simp [query_perplexity, h]

/-- Witness for C8 at a concrete failed call (503) and a concrete success. -/
theorem completion_adapter_amended_witness :
    (¬ (failPost "p").status_code = 200 ∧
      query_perplexity failPost "p" = (none, ["Error: 503", "overloaded"])) ∧
    ((samplePost "p").status_code = 200 ∧
      query_perplexity samplePost "p" = (some sampleBody, [])) :=
  ⟨⟨by decide, (completion_adapter_amended failPost "p").1 (by decide)⟩,
   ⟨rfl, (completion_adapter_amended samplePost "p").2 rfl⟩⟩

/-! ## Claim C9: end-to-end photosynthesis scenario -/

/-- C9: for the query "Explain photosynthesis" the classifier returns Science,
the knowledge lookup returns the Photosynthesis note, and the result composer
emits that note's summary string verbatim as the record's summary field
(whatever the engine state and the math checkbox). -/
theorem photosynthesis_scenario :
    detect_subject (some "Explain photosynthesis") = "Science" ∧
    search_local_notes "Science" (some "Explain photosynthesis") = photosynthesisNote ∧
    ∀ (α : Type) (E : Option (SymEngine α)) (um : Bool),
      (analyze E um "Explain photosynthesis").1 = photosynthesisNote.summary := by
  have hs : detect_subject (some "Explain photosynthesis") = "Science" := by decide
  have hn : search_local_notes "Science" (some "Explain photosynthesis") =
      photosynthesisNote := by decide
  refine ⟨hs, hn, ?_⟩
  intro α E um
  simp only [analyze, hs]
  rw [if_neg (by simp)]
  simp [hn]

/-! ## Claim C10: math branch passes the raw query -/

/-- C10: when the detected subject is Math and the math helpers are enabled,
the composer passes the entire raw query string, unmodified, as the expression
argument — to `derivative` when the lower-cased query contains "derivative"
or "d/dx", and to `solve_equation` otherwise.  No sub-expression is
extracted. -/
theorem math_branch_uses_raw_query {α : Type} (E : SymEngine α) (q : String)
    (h : detect_subject (some q) = "Math") :
    ((analyze (some E) true q).1, (analyze (some E) true q).2.1) =
      (if strContains (pyLower q) "derivative" || strContains (pyLower q) "d/dx"
       then derivative (some E) q
       else solve_equation (some E) q) := by
  simp only [analyze, h]
  rw [if_pos (by simp)]
  cases hb : strContains (pyLower q) "derivative" || strContains (pyLower q) "d/dx" <;>
    simp [hb]

/-- Witness for C10 at the query "Solve 2*x+3=11": the trigger word "Solve" is
part of the expression handed to the engine. -/
theorem math_branch_uses_raw_query_witness :
    detect_subject (some "Solve 2*x+3=11") = "Math" ∧
    ((analyze (some idEngine) true "Solve 2*x+3=11").1,
      (analyze (some idEngine) true "Solve 2*x+3=11").2.1) =
      (if strContains (pyLower "Solve 2*x+3=11") "derivative" ||
          strContains (pyLower "Solve 2*x+3=11") "d/dx"
       then derivative (some idEngine) "Solve 2*x+3=11"
       else solve_equation (some idEngine) "Solve 2*x+3=11") ∧
    solve_equation (some idEngine) "Solve 2*x+3=11" =
      ("Solution: x = [Solve 2*x+3 ~ 11]",
       "Simplified equation: Solve 2*x+3 - (11) = 0\nSymbolic solve steps use sympy\x27s algebraic methods.") :=
  ⟨by decide, math_branch_uses_raw_query idEngine "Solve 2*x+3=11" (by decide), by decide⟩
